import Mathlib

/-!
Verification of the SimpleP compiler middle/back-end (symbol table, semantic
pass, high-level code generator, x86-64 lowering) as a shallow embedding.
Definitions are transcribed from the C++ sources; where a definition lives in
a file the repository does not ship (symbol.h, type.cpp, symtab.h total size,
cfg.cpp), it is modelled from the specification and marked as such in its doc
comment.  Textual comments attached to instructions by the source are
presentation metadata and are not modelled.
-/

set_option maxHeartbeats 1000000

namespace SimpleP

/-- Source location attached to AST nodes (file, line, column). -/
structure SrcInfo where
  filename : String
  line : Nat
  col : Nat
deriving DecidableEq, Repr

/-- Modelled from the spec: the symbol kind enumeration from the missing
symbol.h, in the order the spec lists the kinds
(CONST | VARIABLE | TYPE | RECORD_FIELD), with default C enumerator values. -/
inductive Kind where
  | CONST
  | VARIABLE
  | TYPE
  | RECORD_FIELD
deriving DecidableEq, Repr

/-- Numeric value of a Kind enumerator (C unscoped enum, first value 0). -/
def kindVal : Kind → Nat
  | .CONST => 0
  | .VARIABLE => 1
  | .TYPE => 2
  | .RECORD_FIELD => 3

/-- RealType enumeration from src/assign04/type.h (PRIMITIVE = 0, ARRAY, RECORD). -/
inductive RealType where
  | PRIMITIVE
  | ARRAY
  | RECORD
deriving DecidableEq, Repr

/-- Numeric value of a RealType enumerator. -/
def realTypeVal : RealType → Nat
  | .PRIMITIVE => 0
  | .ARRAY => 1
  | .RECORD => 2

mutual
/-- The Type value object (type.h): a primitive (INTEGER or CHAR), a fixed
array, or a record owning a nested scope. -/
inductive Ty where
  | primitive (name : String)
  | arrayTy (len : Int) (elem : Ty)
  | recordTy (scope : SymbolTable)
deriving Repr

/-- A symbol table (symtab.h / part_002): ordered sequence of symbols, an
optional parent link (modelled as a snapshot of the parent chain), and a
depth (0 at global scope). -/
inductive SymbolTable where
  | mk (tab : List Symbol) (parent : Option SymbolTable) (depth : Nat)
deriving Repr

/-- A symbol: name, kind, type and storage offset. -/
inductive Symbol where
  | mk (name : String) (kind : Kind) (ty : Ty) (offset : Int)
deriving Repr
end

namespace Symbol

def name : Symbol → String
  | .mk n _ _ _ => n

def kind : Symbol → Kind
  | .mk _ k _ _ => k

def ty : Symbol → Ty
  | .mk _ _ t _ => t

def offset : Symbol → Int
  | .mk _ _ _ o => o

end Symbol

namespace SymbolTable

def tab : SymbolTable → List Symbol
  | .mk t _ _ => t

def parent : SymbolTable → Option SymbolTable
  | .mk _ p _ => p

def depth : SymbolTable → Nat
  | .mk _ _ d => d

end SymbolTable

mutual
/-- Modelled from the spec: Type::get_size from the missing type.cpp.
"Size is 8 for primitives, length × element.size for arrays, and the sum of
field sizes for records." -/
def Ty.get_size : Ty → Int
  | .primitive _ => 8
  | .arrayTy len elem => len * elem.get_size
  | .recordTy (.mk tab _ _) => sumFieldSizes tab

/-- Sum of the sizes of a list of symbols (the field list of a record). -/
def sumFieldSizes : List Symbol → Int
  | [] => 0
  | .mk _ _ t _ :: rest => t.get_size + sumFieldSizes rest
end

/-- Modelled from the spec: Type::to_string from the missing type.cpp.
"to_string yields: INTEGER, CHAR, ARRAY <n> OF <element-str>, or RECORD". -/
def Ty.to_string : Ty → String
  | .primitive name => name
  | .arrayTy len elem => "ARRAY " ++ toString len ++ " OF " ++ elem.to_string
  | .recordTy _ => "RECORD"

/-- The nested scope held by a record type (Type::symtab); absent for
non-record types, whose symtab pointer is never initialised in the source. -/
def Ty.symtabOf : Ty → Option SymbolTable
  | .recordTy scope => some scope
  | _ => none

/-- SymbolTable::s_exists (part_002): search the local ordered sequence,
then recurse into the parent; false at the root. -/
def SymbolTable.s_exists : SymbolTable → String → Bool
  | .mk tab parent _, name =>
    if tab.any (fun sym => sym.name = name) then true
    else
      match parent with
      | some p => p.s_exists name
      | none => false

/-- SymbolTable::lookup (part_002): first match in the local sequence, else
recurse into the parent.  The err_fatal exit on a missing name is modelled
as none. -/
def SymbolTable.lookup : SymbolTable → String → Option Symbol
  | .mk tab parent _, name =>
    match tab.find? (fun sym => sym.name = name), parent with
    | some sym, _ => some sym
    | none, some p => p.lookup name
    | none, none => none

/-- SymbolTable::insert (part_002): err_fatal if the name already exists
anywhere up the visible scope chain, otherwise append at the end of the
ordered sequence.  The fatal exit is modelled as the error branch. -/
def SymbolTable.insert (t : SymbolTable) (symbol : Symbol) : Except String SymbolTable :=
  if t.s_exists symbol.name then
    .error ("Name \x27" ++ symbol.name ++ "\x27 is already defined")
  else
    match t with
    | .mk tab parent depth => .ok (.mk (tab ++ [symbol]) parent depth)

/-- Modelled from the spec: get_name_for_kind from the missing symbol.cpp;
spec section 6 gives the printed kind names CONST, VAR, TYPE, FIELD. -/
def get_name_for_kind : Kind → String
  | .CONST => "CONST"
  | .VARIABLE => "VAR"
  | .TYPE => "TYPE"
  | .RECORD_FIELD => "FIELD"

/-- True when the kind reserves storage: spec section 3 lists VARIABLE,
CONST with reserved slot, and record fields as the storage-bearing kinds. -/
def storageBearing : Kind → Bool
  | .CONST => true
  | .VARIABLE => true
  | .TYPE => false
  | .RECORD_FIELD => true

/-- Modelled from the spec: SymbolTable::get_total_size from the missing
assign05 symtab.cpp: "total_size() — sum of sizes of storage-bearing
symbols in this scope". -/
def SymbolTable.get_total_size (t : SymbolTable) : Int :=
  (t.tab.filter (fun sym => storageBearing sym.kind)).foldr
    (fun sym acc => sym.ty.get_size + acc) 0

mutual
/-- SymbolTable::print_sym_tab (part_002): one CSV line per symbol in
declaration order; before a symbol whose kind value equals the RealType
RECORD enumerator value (a cross-enum comparison in the source), the
nested scope of the symbol's type is printed first.  Dereferencing the
uninitialised symtab pointer of a non-record type is modelled as none. -/
def SymbolTable.print_sym_tab : SymbolTable → Option (List String)
  | .mk tab _ depth => printSymsAtDepth depth tab

/-- The loop body of print_sym_tab over the ordered symbol list. -/
def printSymsAtDepth : Nat → List Symbol → Option (List String)
  | _, [] => some []
  | depth, .mk name kind t _ :: rest =>
    let line := toString depth ++ "," ++ get_name_for_kind kind ++ "," ++
      name ++ "," ++ t.to_string
    if kindVal kind = realTypeVal .RECORD then
      match t with
      | .recordTy nested =>
        match nested.print_sym_tab, printSymsAtDepth depth rest with
        | some inner, some outer => some (inner ++ line :: outer)
        | _, _ => none
      | _ => none
    else
      match printSymsAtDepth depth rest with
      | some outer => some (line :: outer)
      | none => none
end

/-!  The semantic pass (SymbolTableBuilder, part_000).  The declaration
side of the AST is embedded below; expression-side nodes the builder
annotates but that the claims do not touch are omitted. -/

mutual
/-- A type expression in the declaration AST: a named type reference, an
array type, or a record type whose body is a list of declarations. -/
inductive TypeExpr where
  | namedType (info : SrcInfo) (name : String)
  | arrayType (len : Int) (elem : TypeExpr)
  | recordType (decls : List Decl)
deriving Repr

/-- A declaration: a variable definition (one identifier list, one type)
or a type definition. -/
inductive Decl where
  | varDef (info : SrcInfo) (names : List String) (tyExpr : TypeExpr)
  | typeDef (info : SrcInfo) (name : String) (tyExpr : TypeExpr)
deriving Repr
end

/-- The mutable state of SymbolTableBuilder: the current scope pointer and
the current offset cursor. -/
structure BuilderState where
  scope : SymbolTable
  curr_offset : Int
deriving Repr

/-- Diagnostic prefix used by err_fatal call sites:
  "file:line:col: Error: <message>\n". -/
def errAt (info : SrcInfo) (msg : String) : String :=
  info.filename ++ ":" ++ toString info.line ++ ":" ++ toString info.col ++
    ": Error: " ++ msg ++ "\n"

/-- The duplicate-name diagnostic text of visit_var_def / visit_type_def. -/
def alreadyDefinedMsg (name : String) : String :=
  "Name \x27" ++ name ++ "\x27 is already defined"

/-- The identifier loop of visit_var_def: for each name, create a VARIABLE
symbol at the current offset, advance the cursor by the type size, then
err_fatal (with file/line/col) if the name exists anywhere in the visible
scope chain, else insert. -/
def insertVarSyms (info : SrcInfo) (ty : Ty) :
    BuilderState → List String → Except String BuilderState
  | st, [] => .ok st
  | st, name :: rest =>
    let offset := st.curr_offset
    let sym := Symbol.mk name .VARIABLE ty offset
    let st' : BuilderState := { st with curr_offset := st.curr_offset + ty.get_size }
    if st'.scope.s_exists name then
      .error (errAt info (alreadyDefinedMsg name))
    else
      match st'.scope.insert sym with
      | .ok sc => insertVarSyms info ty { st' with scope := sc } rest
      | .error e => .error e

mutual
/-- The type-expression handlers of SymbolTableBuilder
(visit_named_type, visit_array_type, visit_record_type). -/
def buildTypeExpr : BuilderState → TypeExpr → Except String (Ty × BuilderState)
  | st, .namedType info type_str =>
    if type_str = "INTEGER" then .ok (.primitive "INTEGER", st)
    else if type_str = "CHAR" then .ok (.primitive "CHAR", st)
    else if st.scope.s_exists type_str then
      match st.scope.lookup type_str with
      | some typeSymbol => .ok (typeSymbol.ty, st)
      | none => .error (errAt info ("Unknown type \x27" ++ type_str ++ "\x27"))
    else .error (errAt info ("Unknown type \x27" ++ type_str ++ "\x27"))
  | st, .arrayType len elem => do
    let (elemTy, st') ← buildTypeExpr st elem
    .ok (.arrayTy len elemTy, st')
  | st, .recordType decls => do
    let nested := SymbolTable.mk [] (some st.scope) (st.scope.depth + 1)
    let st' ← visitDecls { st with scope := nested } decls
    let outer := match st'.scope.parent with
      | some p => p
      | none => st'.scope
    .ok (.recordTy st'.scope, { st' with scope := outer })

/-- The declaration handlers of SymbolTableBuilder (visit_var_def,
visit_type_def): the right-hand type is resolved first, then the symbol is
created at the current offset, the cursor advances by the type size, and a
duplicate anywhere in the visible chain is a located fatal error. -/
def visitDecl : BuilderState → Decl → Except String BuilderState
  | st, .varDef info names tyExpr => do
    let (ty, st') ← buildTypeExpr st tyExpr
    insertVarSyms info ty st' names
  | st, .typeDef info name tyExpr => do
    let (ty, st') ← buildTypeExpr st tyExpr
    let offset := st'.curr_offset
    let sym := Symbol.mk name .TYPE ty offset
    let st'' : BuilderState := { st' with curr_offset := st'.curr_offset + ty.get_size }
    if st''.scope.s_exists name then
      .error (errAt info (alreadyDefinedMsg name))
    else
      match st''.scope.insert sym with
      | .ok sc => .ok { st'' with scope := sc }
      | .error e => .error e

/-- Visiting a declarations block in order. -/
def visitDecls : BuilderState → List Decl → Except String BuilderState
  | st, [] => .ok st
  | st, d :: rest => do
    let st' ← visitDecl st d
    visitDecls st' rest
end

/-- Running the semantic pass on a program's declaration list, starting
from an empty global scope (depth 0, no parent) and offset cursor 0. -/
def runBuilder (decls : List Decl) : Except String BuilderState :=
  visitDecls ⟨SymbolTable.mk [] none 0, 0⟩ decls

/-!  Operands and instructions (cfg.h / highlevel.h / x86_64.h). -/

/-- Machine registers used by the lowering. -/
inductive MReg where
  | MREG_RSP
  | MREG_RDI
  | MREG_RSI
  | MREG_R10
  | MREG_R11
  | MREG_RAX
  | MREG_RDX
deriving DecidableEq, Repr

/-- An IR / assembly operand: integer literal, virtual register (plain or
memory reference), machine register (plain, memory reference, or memory
reference with displacement), or a symbolic label (is_data marks .rodata
labels). -/
inductive Operand where
  | intLit (value : Int)
  | vreg (base : Int)
  | vregMemref (base : Int)
  | mreg (r : MReg)
  | mregMemref (r : MReg)
  | mregMemrefOffset (r : MReg) (disp : Int)
  | label (name : String) (is_data : Bool)
deriving DecidableEq, Repr

namespace Operand

/-- Operand::get_base_reg — the backing register id; the source only calls
it on register-backed operands, other kinds answer 0 here. -/
def get_base_reg : Operand → Int
  | .vreg n => n
  | .vregMemref n => n
  | _ => 0

/-- Operand::get_int_value — the literal value of an int-literal operand. -/
def get_int_value : Operand → Int
  | .intLit n => n
  | _ => 0

/-- Operand::to_memref — a register operand turned into an indirection
through that register. -/
def to_memref : Operand → Operand
  | .vreg n => .vregMemref n
  | .mreg r => .mregMemref r
  | op => op

/-- Operand::has_base_reg — true for register-backed operand kinds. -/
def has_base_reg : Operand → Bool
  | .intLit _ => false
  | .label _ _ => false
  | _ => true

/-- Operand::is_memref — true for memory-reference operand kinds. -/
def is_memref : Operand → Bool
  | .vregMemref _ => true
  | .mregMemref _ => true
  | .mregMemrefOffset _ _ => true
  | _ => false

end Operand

/-- High-level (HINS_*) opcodes. -/
inductive HOpcode where
  | HINS_LOCALADDR
  | HINS_LOAD_ICONST
  | HINS_LOAD_INT
  | HINS_STORE_INT
  | HINS_READ_INT
  | HINS_WRITE_INT
  | HINS_INT_ADD
  | HINS_INT_SUB
  | HINS_INT_MUL
  | HINS_INT_DIV
  | HINS_INT_MOD
  | HINS_INT_COMPARE
  | HINS_JUMP
  | HINS_JE
  | HINS_JNE
  | HINS_JLT
  | HINS_JLTE
  | HINS_JGT
  | HINS_JGTE
  | HINS_NOP
deriving DecidableEq, Repr

/-- Machine (MINS_*) opcodes. -/
inductive MOpcode where
  | MINS_MOVQ
  | MINS_LEAQ
  | MINS_ADDQ
  | MINS_SUBQ
  | MINS_IMULQ
  | MINS_IDIVQ
  | MINS_CQTO
  | MINS_CMPQ
  | MINS_JMP
  | MINS_JE
  | MINS_JNE
  | MINS_JL
  | MINS_JLE
  | MINS_JG
  | MINS_JGE
  | MINS_CALL
  | MINS_NOP
deriving DecidableEq, Repr

/-- An instruction: an opcode and up to three operands (textual comments
are presentation metadata and are not modelled). -/
structure Instr (Op : Type) where
  opcode : Op
  operands : List Operand
deriving DecidableEq, Repr

abbrev HIns := Instr HOpcode
abbrev MIns := Instr MOpcode

/-- Modelled from the spec: InstructionSequence from the missing cfg.cpp:
an ordered list of instructions plus a map from instruction index to the
label defined immediately before that instruction (an index equal to the
length is a label at the end). -/
structure ISeq (I : Type) where
  instructions : List I := []
  labels : List (Nat × String) := []
deriving DecidableEq, Repr

namespace ISeq

variable {I : Type}

/-- InstructionSequence::add_instruction — append. -/
def add_instruction (s : ISeq I) (ins : I) : ISeq I :=
  { s with instructions := s.instructions ++ [ins] }

/-- InstructionSequence::define_label — map the current end index to the
label (an existing entry at that index is replaced, map semantics). -/
def define_label (s : ISeq I) (lab : String) : ISeq I :=
  let idx := s.instructions.length
  if s.labels.any (fun p => p.1 = idx) then
    { s with labels := s.labels.map (fun p => if p.1 = idx then (idx, lab) else p) }
  else
    { s with labels := s.labels ++ [(idx, lab)] }

/-- InstructionSequence::has_label / get_label as an optional lookup. -/
def label_at (s : ISeq I) (idx : Nat) : Option String :=
  (s.labels.find? (fun p => p.1 = idx)).map (fun p => p.2)

end ISeq

/-!  The high-level code generator (HighLevelCodeGen, part_000). -/

/-- The statement/expression AST the IR generator walks.  Comparison
operators are a separate index because the source has one visitor per
comparison node tag. -/
inductive CmpOp where
  | eq
  | neq
  | lt
  | lte
  | gt
  | gte
deriving DecidableEq, Repr

/-- Expression nodes. -/
inductive Expr where
  | intLiteral (value : Int)
  | varRef (name : String)
  | arrayElementRef (name : String) (index : Expr)
  | add (lhs rhs : Expr)
  | sub (lhs rhs : Expr)
  | mul (lhs rhs : Expr)
  | divide (lhs rhs : Expr)
  | modulus (lhs rhs : Expr)
deriving DecidableEq, Repr

/-- A condition node: one of the six comparisons. -/
inductive Cond where
  | compare (op : CmpOp) (lhs rhs : Expr)
deriving DecidableEq, Repr

/-- Statement nodes.  Structured bodies are instruction lists. -/
inductive Stmt where
  | assign (lhs rhs : Expr)
  | readStmt (varref : Expr)
  | writeStmt (arg : Expr)
  | ifStmt (cond : Cond) (iftrue : List Stmt)
  | ifElse (cond : Cond) (iftrue otherwise : List Stmt)
  | whileStmt (cond : Cond) (body : List Stmt)
  | repeatStmt (body : List Stmt) (cond : Cond)
deriving Repr

/-- A program: a declarations block and an instructions block. -/
structure Program where
  decls : List Decl
  stmts : List Stmt

/-- The AST_VAR_REF / AST_ARRAY_ELEMENT_REF tag test the generator uses to
recognise address-valued operands. -/
def Expr.isAddrRef : Expr → Bool
  | .varRef _ => true
  | .arrayElementRef _ _ => true
  | _ => false

/-- The mutable state of HighLevelCodeGen: virtual register counter and
high-water mark (both start at -1), label counter, and the instruction
sequence being built. -/
structure HLState where
  m_vreg : Int := -1
  m_vreg_max : Int := -1
  loop_index : Nat := 0
  code : ISeq HIns := {}
deriving Repr

namespace HLState

/-- HighLevelCodeGen::next_vreg — bump the counter and the high-water mark. -/
def next_vreg (st : HLState) : Int × HLState :=
  let v := st.m_vreg + 1
  (v, { st with m_vreg := v,
                m_vreg_max := if st.m_vreg_max < v then v else st.m_vreg_max })

/-- HighLevelCodeGen::reset_vreg — restore the counter to -1. -/
def reset_vreg (st : HLState) : HLState :=
  { st with m_vreg := -1 }

/-- HighLevelCodeGen::next_label — ".L<n>" with a monotonic counter. -/
def next_label (st : HLState) : String × HLState :=
  (".L" ++ toString st.loop_index, { st with loop_index := st.loop_index + 1 })

/-- Append an instruction to the sequence being built. -/
def emit (st : HLState) (ins : HIns) : HLState :=
  { st with code := st.code.add_instruction ins }

/-- Define a label at the current end of the sequence being built. -/
def define_label (st : HLState) (lab : String) : HLState :=
  { st with code := st.code.define_label lab }

/-- HighLevelCodeGen::get_vreg_max — the count of distinct vregs used
(high-water mark plus one). -/
def get_vreg_max (st : HLState) : Int :=
  st.m_vreg_max + 1

end HLState

/-- visit_identifier: allocate a fresh vreg, emit LOCALADDR with the
symbol's offset (m_symtab lookup; the fatal exit on a missing name is the
error branch), operand is the fresh vreg; the counter is not reset. -/
def visitIdentifier (symtab : SymbolTable) (varname : String) (st : HLState) :
    Except String (Operand × HLState) :=
  let (v, st) := st.next_vreg
  let destreg := Operand.vreg v
  match symtab.lookup varname with
  | some sym =>
    .ok (destreg, st.emit ⟨.HINS_LOCALADDR, [destreg, .intLit sym.offset]⟩)
  | none => .error ("Undefined variable \x27" ++ varname ++ "\x27\n")

/-- The load block each binary visitor runs on an address-valued operand
(var ref or array element ref): allocate a fresh vreg and emit
LOAD_INT vrN, (vrK); otherwise the operand passes through.  This block is
repeated verbatim in every arithmetic and comparison visitor in the
source. -/
def derefIfAddrRef (e : Expr) (op : Operand) (st : HLState) : Operand × HLState :=
  if e.isAddrRef then
    let (r, st) := st.next_vreg
    (.vreg r, st.emit ⟨.HINS_LOAD_INT, [.vreg r, .vregMemref op.get_base_reg]⟩)
  else (op, st)

/-- The tail every arithmetic visitor shares after visiting its children:
dereference address-valued operands, then emit the binary instruction into
a fresh destination vreg, which becomes the node's operand. -/
def emitArith (opc : HOpcode) (lhs rhs : Expr) (l_op0 r_op0 : Operand)
    (st : HLState) : Operand × HLState :=
  let (l_op, st) := derefIfAddrRef lhs l_op0 st
  let (r_op, st) := derefIfAddrRef rhs r_op0 st
  let (result, st) := st.next_vreg
  (.vreg result, st.emit ⟨opc, [.vreg result, l_op, r_op]⟩)

/-- The conditional-jump opcode each comparison visitor emits after
INT_COMPARE, keyed by the node's comparison tag and inverted flag;
transcribed from the if(is_inverted) branch of visit_compare_eq, _neq,
_lt, _lte, _gt and _gte. -/
def compareJumpOpcode : CmpOp → Bool → HOpcode
  | .eq, true => .HINS_JNE
  | .eq, false => .HINS_JE
  | .neq, true => .HINS_JE
  | .neq, false => .HINS_JNE
  | .lt, true => .HINS_JGTE
  | .lt, false => .HINS_JLT
  | .lte, true => .HINS_JGT
  | .lte, false => .HINS_JLTE
  | .gt, true => .HINS_JLTE
  | .gt, false => .HINS_JGT
  | .gte, true => .HINS_JLT
  | .gte, false => .HINS_JGTE

/-- visit_int_literal / visit_var_ref / visit_array_element_ref and the
five arithmetic visitors, as a recursive walk returning the operand the
source attaches to the node. -/
def visitExpr (symtab : SymbolTable) : Expr → HLState → Except String (Operand × HLState)
  | .intLiteral value, st =>
    let (v, st) := st.next_vreg
    .ok (.vreg v, st.emit ⟨.HINS_LOAD_ICONST, [.vreg v, .intLit value]⟩)
  | .varRef name, st =>
    visitIdentifier symtab name st
  | .arrayElementRef name index, st => do
    let (arr_start, st) ← visitIdentifier symtab name st
    let (index_op0, st) ← visitExpr symtab index st
    let index_op := match index with
      | .varRef _ => index_op0.to_memref
      | _ => index_op0
    let elemSize ← match symtab.lookup name with
      | some sym =>
        match sym.ty with
        | .arrayTy _ elem => pure elem.get_size
        | _ => Except.error ("invalid arrayElementType for \x27" ++ name ++ "\x27")
      | none => Except.error ("Undefined variable \x27" ++ name ++ "\x27\n")
    let (off, st) := st.next_vreg
    let st := st.emit ⟨.HINS_INT_MUL, [.vreg off, index_op, .intLit elemSize]⟩
    let (addr, st) := st.next_vreg
    let st := st.emit ⟨.HINS_INT_ADD, [.vreg addr, arr_start, .vreg off]⟩
    .ok (.vreg addr, st)
  | .add lhs rhs, st => do
    let (l, st) ← visitExpr symtab lhs st
    let (r, st) ← visitExpr symtab rhs st
    .ok (emitArith .HINS_INT_ADD lhs rhs l r st)
  | .sub lhs rhs, st => do
    let (l, st) ← visitExpr symtab lhs st
    let (r, st) ← visitExpr symtab rhs st
    .ok (emitArith .HINS_INT_SUB lhs rhs l r st)
  | .mul lhs rhs, st => do
    let (l, st) ← visitExpr symtab lhs st
    let (r, st) ← visitExpr symtab rhs st
    .ok (emitArith .HINS_INT_MUL lhs rhs l r st)
  | .divide lhs rhs, st => do
    let (l, st) ← visitExpr symtab lhs st
    let (r, st) ← visitExpr symtab rhs st
    .ok (emitArith .HINS_INT_DIV lhs rhs l r st)
  | .modulus lhs rhs, st => do
    let (l, st) ← visitExpr symtab lhs st
    let (r, st) ← visitExpr symtab rhs st
    .ok (emitArith .HINS_INT_MOD lhs rhs l r st)

/-- The comparison visitors (visit_compare_eq .. visit_compare_gte): visit
both children, dereference address-valued operands, emit INT_COMPARE, then
emit the conditional jump selected by the node's tag and inverted flag,
targeting the label operand the control-flow parent stored on the node
(here passed as parameters). -/
def visitCompare (symtab : SymbolTable) (c : Cond) (target : Operand)
    (inverted : Bool) (st : HLState) : Except String HLState :=
  match c with
  | .compare op lhs rhs => do
    let (l_op0, st) ← visitExpr symtab lhs st
    let (r_op0, st) ← visitExpr symtab rhs st
    let (l_op, st) := derefIfAddrRef lhs l_op0 st
    let (r_op, st) := derefIfAddrRef rhs r_op0 st
    let st := st.emit ⟨.HINS_INT_COMPARE, [l_op, r_op]⟩
    .ok (st.emit ⟨compareJumpOpcode op inverted, [target]⟩)

mutual
/-- The statement visitors of HighLevelCodeGen (visit_assign, visit_read,
visit_write, visit_if, visit_if_else, visit_while, visit_repeat). -/
def visitStmt (symtab : SymbolTable) : Stmt → HLState → Except String HLState
  | .assign lhs rhs, st => do
    let (l_vreg, st) ← visitExpr symtab lhs st
    let (r_vreg, st) ← visitExpr symtab rhs st
    let st := st.emit ⟨.HINS_STORE_INT,
      [.vregMemref l_vreg.get_base_reg, .vreg r_vreg.get_base_reg]⟩
    .ok st.reset_vreg
  | .readStmt varref, st => do
    let (destreg, st) ← visitExpr symtab varref st
    let (readreg, st) := st.next_vreg
    let st := st.emit ⟨.HINS_READ_INT, [.vreg readreg]⟩
    let st := st.emit ⟨.HINS_STORE_INT,
      [.vregMemref destreg.get_base_reg, .vreg readreg]⟩
    .ok st.reset_vreg
  | .writeStmt arg, st => do
    let (op0, st) ← visitExpr symtab arg st
    let (op, st) := derefIfAddrRef arg op0 st
    let st := st.emit ⟨.HINS_WRITE_INT, [op]⟩
    .ok st.reset_vreg
  | .ifStmt cond iftrue, st => do
    let (out_label, st) := st.next_label
    let st ← visitCompare symtab cond (.label out_label false) true st
    let st ← visitStmts symtab iftrue st
    .ok (st.define_label out_label)
  | .ifElse cond iftrue otherwise, st => do
    let (else_label, st) := st.next_label
    let (out_label, st) := st.next_label
    let st ← visitCompare symtab cond (.label else_label false) true st
    let st ← visitStmts symtab iftrue st
    let st := st.emit ⟨.HINS_JUMP, [.label out_label false]⟩
    let st := st.define_label else_label
    let st ← visitStmts symtab otherwise st
    let st := st.define_label out_label
    .ok (st.emit ⟨.HINS_NOP, []⟩)
  | .whileStmt cond body, st => do
    let (loop_body_label, st) := st.next_label
    let (loop_condition_label, st) := st.next_label
    let st := st.emit ⟨.HINS_JUMP, [.label loop_condition_label false]⟩
    let st := st.define_label loop_body_label
    let st ← visitStmts symtab body st
    let st := st.define_label loop_condition_label
    visitCompare symtab cond (.label loop_body_label false) false st
  | .repeatStmt body cond, st => do
    let (loop_body_label, st) := st.next_label
    let (loop_condition_label, st) := st.next_label
    let st := st.define_label loop_body_label
    let st ← visitStmts symtab body st
    let st := st.define_label loop_condition_label
    visitCompare symtab cond (.label loop_body_label false) true st

/-- Visiting an instructions block in order. -/
def visitStmts (symtab : SymbolTable) : List Stmt → HLState → Except String HLState
  | [], st => .ok st
  | s :: rest, st => do
    let st' ← visitStmt symtab s st
    visitStmts symtab rest st'
end

/-- Running the IR generator over a program: the declarations block is
explicitly skipped (visit_declarations is a no-op), then the instructions
block is visited, starting from the initial state. -/
def runHLCodeGen (symtab : SymbolTable) (p : Program) : Except String HLState :=
  visitStmts symtab p.stmts {}

/-!  The assembly lowering (AssemblyCodeGen, part_000). -/

/-- The fields the AssemblyCodeGen constructor computes: local storage
size, vreg count, and the total frame size (WORD_SIZE = 8). -/
structure AssemblyCodeGen where
  local_storage_size : Int
  num_vreg : Int
  total_storage_size : Int
deriving DecidableEq, Repr

/-- The AssemblyCodeGen constructor: total storage is
storage + vregs × 8, plus 8 more when that total is a multiple of 16
(the stack alignment check). -/
def AssemblyCodeGen.init (storage_size vreg_max : Int) : AssemblyCodeGen :=
  let total := storage_size + vreg_max * 8
  { local_storage_size := storage_size
    num_vreg := vreg_max
    total_storage_size := if total % 16 = 0 then total + 8 else total }

/-- The prologue line printed by emit_preamble. -/
def AssemblyCodeGen.prologue_line (cg : AssemblyCodeGen) : String :=
  "\tsubq $" ++ toString cg.total_storage_size ++ ", %rsp\n"

/-- The epilogue lines printed by emit_epilogue. -/
def AssemblyCodeGen.epilogue_lines (cg : AssemblyCodeGen) : List String :=
  ["\taddq $" ++ toString cg.total_storage_size ++ ", %rsp\n",
   "\tmovl $0, %eax\n",
   "\tret\n"]

/-- The stack slot of a vreg-backed operand:
(local_storage_size + base × 8)(%rsp); this expression is computed inline
at every use in translate_instructions. -/
def slotOf (storage : Int) (op : Operand) : Operand :=
  .mregMemrefOffset .MREG_RSP (storage + op.get_base_reg * 8)

/-- AssemblyCodeGen::get_mreg_operand: an int literal is used in place,
anything else becomes its stack slot. -/
def get_mreg_operand (storage : Int) (vreg_or_lit : Operand) : Operand :=
  match vreg_or_lit with
  | .intLit v => .intLit v
  | op => slotOf storage op

/-- The switch body of AssemblyCodeGen::translate_instructions: the
machine instructions emitted for one high-level instruction (unhandled
shapes fall through to the default case and emit nothing).  In the source
the HINS_NOP case falls through into the empty default case, which adds
nothing further. -/
def translateOne (storage : Int) (hin : HIns) : List MIns :=
  let r10 : Operand := .mreg .MREG_R10
  let r11 : Operand := .mreg .MREG_R11
  let rax : Operand := .mreg .MREG_RAX
  let rdx : Operand := .mreg .MREG_RDX
  let rdi : Operand := .mreg .MREG_RDI
  let rsi : Operand := .mreg .MREG_RSI
  let inputfmt : Operand := .label "s_readint_fmt" true
  let outputfmt : Operand := .label "s_writeint_fmt" true
  match hin.opcode, hin.operands with
  | .HINS_LOCALADDR, [lhs, rhs] =>
    [⟨.MINS_LEAQ, [.mregMemrefOffset .MREG_RSP rhs.get_int_value, r10]⟩,
     ⟨.MINS_MOVQ, [r10, slotOf storage lhs]⟩]
  | .HINS_LOAD_INT, [lhs, rhs] =>
    let loadsrc := match rhs with
      | .intLit v => Operand.intLit v
      | _ => slotOf storage rhs
    ⟨.MINS_MOVQ, [loadsrc, r11]⟩ ::
      (match rhs with
        | .intLit _ => []
        | _ => [⟨.MINS_MOVQ, [.mregMemref .MREG_R11, r11]⟩]) ++
      [⟨.MINS_MOVQ, [r11, slotOf storage lhs]⟩]
  | .HINS_LOAD_ICONST, [vr, lit] =>
    [⟨.MINS_MOVQ, [lit, get_mreg_operand storage vr]⟩]
  | .HINS_STORE_INT, [lhs, rhs] =>
    [⟨.MINS_MOVQ, [slotOf storage rhs, r11]⟩,
     ⟨.MINS_MOVQ, [slotOf storage lhs, r10]⟩,
     ⟨.MINS_MOVQ, [r11, .mregMemref .MREG_R10]⟩]
  | .HINS_WRITE_INT, [op] =>
    [⟨.MINS_MOVQ, [outputfmt, rdi]⟩,
     ⟨.MINS_MOVQ, [slotOf storage op, rsi]⟩,
     ⟨.MINS_CALL, [.label "printf" false]⟩]
  | .HINS_READ_INT, [op] =>
    [⟨.MINS_MOVQ, [inputfmt, rdi]⟩,
     ⟨.MINS_LEAQ, [slotOf storage op, rsi]⟩,
     ⟨.MINS_CALL, [.label "scanf" false]⟩]
  | .HINS_INT_ADD, [dest, arg1, arg2] =>
    [⟨.MINS_MOVQ, [slotOf storage arg1, r11]⟩,
     ⟨.MINS_MOVQ, [slotOf storage arg2, r10]⟩,
     ⟨.MINS_ADDQ, [r11, r10]⟩,
     ⟨.MINS_MOVQ, [r10, slotOf storage dest]⟩]
  | .HINS_INT_SUB, [dest, arg1, arg2] =>
    [⟨.MINS_MOVQ, [slotOf storage arg1, r10]⟩,
     ⟨.MINS_MOVQ, [slotOf storage arg2, r11]⟩,
     ⟨.MINS_SUBQ, [r11, r10]⟩,
     ⟨.MINS_MOVQ, [r10, slotOf storage dest]⟩]
  | .HINS_INT_MUL, [dest, arg1, arg2] =>
    (if arg1.has_base_reg then
      [⟨.MINS_MOVQ, [slotOf storage arg1, r11]⟩]
    else
      [⟨.MINS_MOVQ, [arg1, r11]⟩]) ++
    (if arg1.is_memref then [⟨.MINS_MOVQ, [r11.to_memref, r11]⟩] else []) ++
    (if arg2.has_base_reg then
      [⟨.MINS_MOVQ, [slotOf storage arg2, r10]⟩]
    else
      [⟨.MINS_MOVQ, [arg2, r10]⟩]) ++
    (if arg2.is_memref then [⟨.MINS_MOVQ, [r10.to_memref, r10]⟩] else []) ++
    [⟨.MINS_IMULQ, [r11, r10]⟩,
     ⟨.MINS_MOVQ, [r10, slotOf storage dest]⟩]
  | .HINS_INT_DIV, [dest, divarg1, divarg2] =>
    [⟨.MINS_MOVQ, [slotOf storage divarg1, rax]⟩,
     ⟨.MINS_CQTO, []⟩,
     ⟨.MINS_MOVQ, [slotOf storage divarg2, r10]⟩,
     ⟨.MINS_IDIVQ, [r10]⟩,
     ⟨.MINS_MOVQ, [rax, slotOf storage dest]⟩]
  | .HINS_INT_MOD, [dest, divarg1, divarg2] =>
    [⟨.MINS_MOVQ, [slotOf storage divarg1, rax]⟩,
     ⟨.MINS_CQTO, []⟩,
     ⟨.MINS_MOVQ, [slotOf storage divarg2, r10]⟩,
     ⟨.MINS_IDIVQ, [r10]⟩,
     ⟨.MINS_MOVQ, [rdx, slotOf storage dest]⟩]
  | .HINS_INT_COMPARE, [l_op, r_op] =>
    [⟨.MINS_MOVQ, [get_mreg_operand storage l_op, r10]⟩,
     ⟨.MINS_MOVQ, [get_mreg_operand storage r_op, r11]⟩,
     ⟨.MINS_CMPQ, [r11, r10]⟩]
  | .HINS_JUMP, [lab] => [⟨.MINS_JMP, [lab]⟩]
  | .HINS_JE, [lab] => [⟨.MINS_JE, [lab]⟩]
  | .HINS_JNE, [lab] => [⟨.MINS_JNE, [lab]⟩]
  | .HINS_JLT, [lab] => [⟨.MINS_JL, [lab]⟩]
  | .HINS_JLTE, [lab] => [⟨.MINS_JLE, [lab]⟩]
  | .HINS_JGT, [lab] => [⟨.MINS_JG, [lab]⟩]
  | .HINS_JGTE, [lab] => [⟨.MINS_JGE, [lab]⟩]
  | .HINS_NOP, _ => [⟨.MINS_NOP, []⟩]
  | _, _ => []

/-- The loop of translate_instructions over the indexed high-level
sequence: a label mapped to index i is defined on the assembly sequence
before the block translated for instruction i. -/
def translateFrom (storage : Int) (hlabels : List (Nat × String)) :
    Nat → List HIns → ISeq MIns → ISeq MIns
  | _, [], acc => acc
  | i, hin :: rest, acc =>
    let acc := match (hlabels.find? (fun p => p.1 = i)).map (fun p => p.2) with
      | some lab => acc.define_label lab
      | none => acc
    let acc := (translateOne storage hin).foldl ISeq.add_instruction acc
    translateFrom storage hlabels (i + 1) rest acc

/-- AssemblyCodeGen::translate_instructions: translate every high-level
instruction in order, carrying labels across, and transfer a label defined
at the end of the high-level sequence. -/
def translate_instructions (storage : Int) (hseq : ISeq HIns) : ISeq MIns :=
  let asmSeq := translateFrom storage hseq.labels 0 hseq.instructions {}
  match (hseq.labels.find? (fun p => p.1 = hseq.instructions.length)).map (fun p => p.2) with
  | some lab => asmSeq.define_label lab
  | none => asmSeq

/-!  The CLI driver (src/assign05/main.cpp). -/

/-- The Mode enumeration of main.cpp. -/
inductive Mode where
  | PRINT_AST
  | PRINT_AST_GRAPH
  | PRINT_SYMBOL_TABLE
  | PRINT_HINS
  | OPTIMIZE
  | COMPILE
deriving DecidableEq, Repr

/-- The getopt loop of main: each recognised option selects its mode; an
unrecognised option makes getopt return the question-mark case, whose
handler calls print_usage, which err_fatal exits (modelled as none). -/
def processOptions : Mode → List Char → Option Mode
  | m, [] => some m
  | _, c :: rest =>
    if c = 'p' then processOptions .PRINT_AST rest
    else if c = 'g' then processOptions .PRINT_AST_GRAPH rest
    else if c = 's' then processOptions .PRINT_SYMBOL_TABLE rest
    else if c = 'h' then processOptions .PRINT_HINS rest
    else if c = 'o' then processOptions .OPTIMIZE rest
    else none

/-- Observable outcome of an invocation of the driver. -/
inductive CliOutcome where
  | usageError
  | printAst
  | printAstGraph
  | printSymtab
  | printHins
  | emitAssembly
deriving DecidableEq, Repr

/-- main: process the options (usage error exits on an unknown option),
usage error when no filename remains, then dispatch on the mode; both
OPTIMIZE (flags o and c) and COMPILE (flag c) reach the compile-and-emit
path of Context::gen_code. -/
def mainOutcome (opts : List Char) (hasFilename : Bool) : CliOutcome :=
  match processOptions .COMPILE opts with
  | none => .usageError
  | some mode =>
    if !hasFilename then .usageError
    else
      match mode with
      | .PRINT_AST => .printAst
      | .PRINT_AST_GRAPH => .printAstGraph
      | .PRINT_SYMBOL_TABLE => .printSymtab
      | .PRINT_HINS => .printHins
      | .OPTIMIZE => .emitAssembly
      | .COMPILE => .emitAssembly

/-!  Definitions written from the specification's words, for comparison
with the embedded source (refinement and counterexample claims), plus
concrete inputs used by closed theorems. -/

/-- The conditional-jump table as the spec states it: non-inverted emits
JE/JNE/JLT/JLTE/JGT/JGTE (jump when the comparison is true), inverted
emits the opposite jump JNE/JE/JGTE/JGT/JLTE/JLT (jump when it is
false). -/
def claimCompareJump (op : CmpOp) (inverted : Bool) : HOpcode :=
  if inverted then
    match op with
    | .eq => .HINS_JNE
    | .neq => .HINS_JE
    | .lt => .HINS_JGTE
    | .lte => .HINS_JGT
    | .gt => .HINS_JLTE
    | .gte => .HINS_JLT
  else
    match op with
    | .eq => .HINS_JE
    | .neq => .HINS_JNE
    | .lt => .HINS_JLT
    | .lte => .HINS_JLTE
    | .gt => .HINS_JGT
    | .gte => .HINS_JGTE

/-- The INT_SUB lowering as the claim states it: load operand a into %r11
and operand b into %r10, SUBQ %r11,%r10, store %r10 into slot(d). -/
def claimSubLowering (storage : Int) (d a b : Operand) : List MIns :=
  [⟨.MINS_MOVQ, [slotOf storage a, .mreg .MREG_R11]⟩,
   ⟨.MINS_MOVQ, [slotOf storage b, .mreg .MREG_R10]⟩,
   ⟨.MINS_SUBQ, [.mreg .MREG_R11, .mreg .MREG_R10]⟩,
   ⟨.MINS_MOVQ, [.mreg .MREG_R10, slotOf storage d]⟩]

mutual
/-- The symbol-table print as the claim states it: one CSV line per symbol
in declaration order, and before emitting a symbol of kind RECORD_FIELD
whose type is a record, the record's nested scope is printed first. -/
def claimPrintSymTab : SymbolTable → List String
  | .mk tab _ depth => claimPrintSyms depth tab

/-- The per-symbol loop of the claimed print. -/
def claimPrintSyms : Nat → List Symbol → List String
  | _, [] => []
  | depth, .mk name kind t _ :: rest =>
    let line := toString depth ++ "," ++ get_name_for_kind kind ++ "," ++
      name ++ "," ++ t.to_string
    (if kind = .RECORD_FIELD then
      match t with
      | .recordTy nested => claimPrintSymTab nested
      | _ => []
    else []) ++ line :: claimPrintSyms depth rest
end

mutual
/-- The print behaviour amended to what the source does: the recursion
happens before every symbol of kind TYPE — the source compares the Kind
value against the RealType RECORD enumerator, and Kind TYPE shares its
numeric value 2 — printing the nested scope of the symbol's type, and
crashing (none) when that type is not a record. -/
def amendedPrintSymTab : SymbolTable → Option (List String)
  | .mk tab _ depth => amendedPrintSyms depth tab

/-- The per-symbol loop of the amended print. -/
def amendedPrintSyms : Nat → List Symbol → Option (List String)
  | _, [] => some []
  | depth, .mk name kind t _ :: rest =>
    let line := toString depth ++ "," ++ get_name_for_kind kind ++ "," ++
      name ++ "," ++ t.to_string
    if kind = .TYPE then
      match t with
      | .recordTy nested =>
        match amendedPrintSymTab nested, amendedPrintSyms depth rest with
        | some inner, some outer => some (inner ++ line :: outer)
        | _, _ => none
      | _ => none
    else
      match amendedPrintSyms depth rest with
      | some outer => some (line :: outer)
      | none => none
end

/-- Extract the success state of a computation known to succeed. -/
def stateOfOk : Except String HLState → HLState
  | .ok st => st
  | .error _ => {}

/-- The empty program: no declarations, no statements. -/
def emptyProgram : Program := ⟨[], []⟩

/-- A concrete source location for closed theorems. -/
def cInfo : SrcInfo := ⟨"input.txt", 3, 7⟩

/-- A second concrete source location. -/
def cInfo2 : SrcInfo := ⟨"input.txt", 4, 9⟩

/-- Concrete failing input for the offset invariant:
VAR r : RECORD a : INTEGER ; END ; -/
def c3Input : List Decl :=
  [.varDef cInfo ["r"]
    (.recordType [.varDef cInfo2 ["a"] (.namedType cInfo2 "INTEGER")])]

/-- A concrete scope chain whose parent (and only the parent) binds x. -/
def parentOnlyScope : SymbolTable :=
  .mk [] (some (.mk [.mk "x" .VARIABLE (.primitive "INTEGER") 0] none 0)) 1

/-- A concrete scope binding T as a TYPE symbol whose type is a record. -/
def typeBoundScope : SymbolTable :=
  .mk [.mk "T" .TYPE
        (.recordTy (.mk [.mk "a" .VARIABLE (.primitive "INTEGER") 0] none 1)) 8]
    none 0

/-- The semantic-pass variable-reference handler (visit_var_ref,
part_000): accept whenever the name exists anywhere in the visible scope
chain — whatever the kind of the binding — and copy the symbol's type, the
identifier text and the identifier's source location onto the node;
otherwise err_fatal with the located Undefined-variable diagnostic.  The
err_fatal inside SymbolTable::lookup (unreachable when s_exists holds) is
the inner error branch. -/
def visit_var_ref_sem (scope : SymbolTable) (varname : String)
    (identInfo : SrcInfo) : Except String (String × Ty × SrcInfo) :=
  if scope.s_exists varname then
    match scope.lookup varname with
    | some sym => .ok (varname, sym.ty, identInfo)
    | none => .error ("Undefined variable \x27" ++ varname ++ "\x27\n")
  else
    .error (errAt identInfo ("Undefined variable \x27" ++ varname ++ "\x27"))

/-!  Helper lemmas shared by the claim theorems. -/

/-- Reduction of a bind on a successful Except computation. -/
theorem exceptBind_ok {α β : Type} {ε : Type} (a : α) (f : α → Except ε β) :
    (Except.ok a >>= f) = f a := rfl

/-- Reduction of a bind on a failed Except computation. -/
theorem exceptBind_err {α β : Type} {ε : Type} (e : ε) (f : α → Except ε β) :
    ((Except.error e : Except ε α) >>= f) = .error e := rfl

/-- The getopt loop exits with the usage error as soon as it meets an
option character outside "pgsho". -/
theorem processOptions_unknown :
    ∀ (opts : List Char) (m : Mode) (c : Char), c ∈ opts →
      c ≠ 'p' → c ≠ 'g' → c ≠ 's' → c ≠ 'h' → c ≠ 'o' →
      processOptions m opts = none := by
  intro opts
  induction opts with
  | nil => intro m c hmem; cases hmem
  | cons hd tl ih =>
    intro m c hmem hp hg hs hh ho
    rcases List.mem_cons.mp hmem with hEq | hTl
    · subst hEq
      simp [processOptions, hp, hg, hs, hh, ho]
    · by_cases h1 : hd = 'p'
      · subst h1; simpa [processOptions] using ih _ c hTl hp hg hs hh ho
      · by_cases h2 : hd = 'g'
        · subst h2; simpa [processOptions] using ih _ c hTl hp hg hs hh ho
        · by_cases h3 : hd = 's'
          · subst h3; simpa [processOptions] using ih _ c hTl hp hg hs hh ho
          · by_cases h4 : hd = 'h'
            · subst h4; simpa [processOptions] using ih _ c hTl hp hg hs hh ho
            · by_cases h5 : hd = 'o'
              · subst h5; simpa [processOptions] using ih _ c hTl hp hg hs hh ho
              · simp [processOptions, h1, h2, h3, h4, h5]

/-- The jump selection transcribed from the six comparison visitors agrees
with the spec's table everywhere. -/
theorem compareJumpOpcode_eq_claim :
    ∀ (op : CmpOp) (inv : Bool), compareJumpOpcode op inv = claimCompareJump op inv := by
  intro op inv
  cases op <;> cases inv <;> rfl

/-- Every successful comparison visit ends its emitted sequence with
INT_COMPARE followed immediately by the selected conditional jump on the
target operand the parent stored on the node. -/
theorem visitCompare_tail (symtab : SymbolTable) (op : CmpOp) (lhs rhs : Expr)
    (target : Operand) (inv : Bool) (st st' : HLState)
    (h : visitCompare symtab (.compare op lhs rhs) target inv st = .ok st') :
    ∃ pre l_op r_op, st'.code.instructions =
      pre ++ [⟨.HINS_INT_COMPARE, [l_op, r_op]⟩,
              ⟨compareJumpOpcode op inv, [target]⟩] := by
  simp only [visitCompare] at h
  cases h1 : visitExpr symtab lhs st with
  | error e => rw [h1, exceptBind_err] at h; exact absurd h (by simp)
  | ok p1 =>
    obtain ⟨l_op0, st1⟩ := p1
    rw [h1, exceptBind_ok] at h
    cases h2 : visitExpr symtab rhs st1 with
    | error e => rw [h2, exceptBind_err] at h; exact absurd h (by simp)
    | ok p2 =>
      obtain ⟨r_op0, st2⟩ := p2
      rw [h2, exceptBind_ok] at h
      obtain rfl : _ = st' := Except.ok.inj h
      refine ⟨(derefIfAddrRef rhs r_op0 (derefIfAddrRef lhs l_op0 st2).2).2.code.instructions,
        (derefIfAddrRef lhs l_op0 st2).1,
        (derefIfAddrRef rhs r_op0 (derefIfAddrRef lhs l_op0 st2).2).1, ?_⟩
      simp [HLState.emit, ISeq.add_instruction]

/-!  Claim theorems. -/

/-- C1: for every storage size S (a multiple of 8, being a sum of type
sizes) and vreg count V, the frame is S + V*8, plus 8 exactly when that
sum is a multiple of 16, and the resulting frame satisfies
(frame + 8) mod 16 = 0. -/
theorem frame_size_aligned (S V : Int) (h8 : (8 : Int) ∣ S) :
    (AssemblyCodeGen.init S V).total_storage_size
      = S + V * 8 + (if (S + V * 8) % 16 = 0 then 8 else 0)
    ∧ ((AssemblyCodeGen.init S V).total_storage_size + 8) % 16 = 0 := by
  obtain ⟨k, hk⟩ := h8
  constructor
  · by_cases hmod : (S + V * 8) % 16 = 0 <;>
      simp [AssemblyCodeGen.init, hmod]
  · by_cases hmod : (S + V * 8) % 16 = 0 <;>
      simp only [AssemblyCodeGen.init, hmod, if_true, if_false] <;>
      omega

/-- Witness for C1 at S = 16, V = 1 (frame 24, (24+8) mod 16 = 0). -/
theorem frame_size_aligned_witness :
    (8 : Int) ∣ 16 ∧ ((AssemblyCodeGen.init 16 1).total_storage_size + 8) % 16 = 0 :=
  ⟨⟨2, by norm_num⟩, (frame_size_aligned 16 1 ⟨2, by norm_num⟩).2⟩

/-- C7 counterexample: at storage 0 with d, a, b = vr2, vr0, vr1, the
emitted SUB lowering differs from the claimed one — the code loads a into
%r10 and b into %r11, not the other way round. -/
theorem int_sub_lowering_cx :
    translateOne 0 ⟨.HINS_INT_SUB, [.vreg 2, .vreg 0, .vreg 1]⟩ ≠
      claimSubLowering 0 (.vreg 2) (.vreg 0) (.vreg 1) := by
  decide

/-- C7 amended: for every INT_SUB d,a,b the lowering loads operand a into
%r10 and operand b into %r11, emits SUBQ %r11,%r10 (leaving a − b in
%r10), and stores %r10 into slot(d). -/
theorem int_sub_lowering (storage : Int) (d a b : Operand) :
    translateOne storage ⟨.HINS_INT_SUB, [d, a, b]⟩ =
      [⟨.MINS_MOVQ, [slotOf storage a, .mreg .MREG_R10]⟩,
       ⟨.MINS_MOVQ, [slotOf storage b, .mreg .MREG_R11]⟩,
       ⟨.MINS_SUBQ, [.mreg .MREG_R11, .mreg .MREG_R10]⟩,
       ⟨.MINS_MOVQ, [.mreg .MREG_R10, slotOf storage d]⟩] := rfl

/-- C8 counterexample: an invocation with the unknown flag z (filename
present) terminates with the usage error instead of compiling. -/
theorem cli_unknown_flag_cx : ¬ mainOutcome ['z'] true = .emitAssembly := by
  decide

/-- C8 amended: with no flag the driver compiles and emits assembly to
stdout, but an unknown option flag makes getopt take the question-mark
case, which prints the usage message and exits (usage error). -/
theorem cli_flag_behavior :
    mainOutcome [] true = .emitAssembly ∧
    ∀ (opts : List Char) (c : Char), c ∈ opts →
      c ≠ 'p' → c ≠ 'g' → c ≠ 's' → c ≠ 'h' → c ≠ 'o' →
      mainOutcome opts true = .usageError := by
  constructor
  · rfl
  · intro opts c hmem hp hg hs hh ho
    have hnone := processOptions_unknown opts .COMPILE c hmem hp hg hs hh ho
    simp [mainOutcome, hnone]

/-- Witness for C8 at the empty option list and at the unknown flag z. -/
theorem cli_flag_behavior_witness :
    mainOutcome [] true = .emitAssembly ∧ mainOutcome ['z'] true = .usageError :=
  ⟨cli_flag_behavior.1,
   cli_flag_behavior.2 ['z'] 'z' (by decide) (by decide) (by decide) (by decide)
     (by decide) (by decide)⟩

/-- C9: the full pipeline on the empty program — empty global scope, no
statements, hence vreg count 0 — yields frame size exactly 8 (zero
storage plus the alignment pad), visible in the prologue/epilogue pair. -/
theorem empty_program_frame_is_8 :
    ∃ bst hst,
      runBuilder emptyProgram.decls = .ok bst ∧
      runHLCodeGen bst.scope emptyProgram = .ok hst ∧
      (AssemblyCodeGen.init bst.scope.get_total_size hst.get_vreg_max).total_storage_size = 8 ∧
      (AssemblyCodeGen.init bst.scope.get_total_size hst.get_vreg_max).prologue_line
        = "\tsubq $8, %rsp\n" ∧
      (AssemblyCodeGen.init bst.scope.get_total_size hst.get_vreg_max).epilogue_lines
        = ["\taddq $8, %rsp\n", "\tmovl $0, %eax\n", "\tret\n"] := by
  refine ⟨_, _, rfl, rfl, ?_, ?_, ?_⟩ <;> decide

/-- Defining a label never changes the instruction list of a sequence. -/
theorem define_label_instructions {I : Type} (s : ISeq I) (lab : String) :
    (s.define_label lab).instructions = s.instructions := by
  simp only [ISeq.define_label]
  split <;> rfl

/-- C2: every comparison visit emits, directly after INT_COMPARE, the
conditional jump given by the spec's table for its operator and inverted
flag, targeting the label operand stored on the node. -/
theorem compare_emits_table_jump (symtab : SymbolTable) (op : CmpOp)
    (lhs rhs : Expr) (target : Operand) (inverted : Bool) (st st' : HLState)
    (h : visitCompare symtab (.compare op lhs rhs) target inverted st = .ok st') :
    ∃ pre l_op r_op, st'.code.instructions =
      pre ++ [⟨.HINS_INT_COMPARE, [l_op, r_op]⟩,
              ⟨claimCompareJump op inverted, [target]⟩] := by
  rw [← compareJumpOpcode_eq_claim]
  exact visitCompare_tail symtab op lhs rhs target inverted st st' h

/-- Witness for C2: a concrete inverted less-than comparison of two
integer literals ends with INT_COMPARE followed by JGTE to the target. -/
theorem compare_emits_table_jump_witness :
    ∃ pre l_op r_op,
      (stateOfOk (visitCompare (.mk [] none 0)
          (.compare .lt (.intLiteral 1) (.intLiteral 2))
          (.label ".L0" false) true {})).code.instructions =
        pre ++ [⟨.HINS_INT_COMPARE, [l_op, r_op]⟩,
                ⟨claimCompareJump .lt true, [.label ".L0" false]⟩] :=
  compare_emits_table_jump (.mk [] none 0) .lt (.intLiteral 1) (.intLiteral 2)
    (.label ".L0" false) true {}
    (stateOfOk (visitCompare (.mk [] none 0)
      (.compare .lt (.intLiteral 1) (.intLiteral 2)) (.label ".L0" false) true {}))
    (by rfl)

/-- C4: visit_repeat allocates Lbody then Lcond, defines Lbody at the
current end (emitting nothing before the body), visits the body, defines
Lcond, then visits the condition with target Lbody and inverted true, so
the sequence ends with INT_COMPARE followed by the jump-when-false
conditional jump back to Lbody; no unconditional JUMP precedes the
body. -/
theorem visit_repeat_contract (symtab : SymbolTable) (body : List Stmt)
    (op : CmpOp) (lhs rhs : Expr) (st : HLState) :
    (visitStmt symtab (.repeatStmt body (.compare op lhs rhs)) st =
      (visitStmts symtab body
          (HLState.define_label { st with loop_index := st.loop_index + 2 }
            (".L" ++ toString st.loop_index)) >>= fun st2 =>
        visitCompare symtab (.compare op lhs rhs)
          (.label (".L" ++ toString st.loop_index) false) true
          (st2.define_label (".L" ++ toString (st.loop_index + 1))))) ∧
    (HLState.define_label { st with loop_index := st.loop_index + 2 }
        (".L" ++ toString st.loop_index)).code.instructions
      = st.code.instructions ∧
    (∀ st', visitStmt symtab (.repeatStmt body (.compare op lhs rhs)) st = .ok st' →
      ∃ pre l_op r_op, st'.code.instructions =
        pre ++ [⟨.HINS_INT_COMPARE, [l_op, r_op]⟩,
                ⟨claimCompareJump op true,
                 [.label (".L" ++ toString st.loop_index) false]⟩]) := by
  refine ⟨rfl, define_label_instructions _ _, ?_⟩
  intro st' h
  rw [show visitStmt symtab (.repeatStmt body (.compare op lhs rhs)) st =
      (visitStmts symtab body
          (HLState.define_label { st with loop_index := st.loop_index + 2 }
            (".L" ++ toString st.loop_index)) >>= fun st2 =>
        visitCompare symtab (.compare op lhs rhs)
          (.label (".L" ++ toString st.loop_index) false) true
          (st2.define_label (".L" ++ toString (st.loop_index + 1)))) from rfl] at h
  cases hb : visitStmts symtab body
      (HLState.define_label { st with loop_index := st.loop_index + 2 }
        (".L" ++ toString st.loop_index)) with
  | error e => rw [hb, exceptBind_err] at h; exact absurd h (by simp)
  | ok st2 =>
    rw [hb, exceptBind_ok] at h
    rw [← compareJumpOpcode_eq_claim]
    exact visitCompare_tail symtab op lhs rhs _ true _ st' h

/-- Witness for C4: the repeat of an empty body over an equality of two
literals ends with INT_COMPARE followed by JNE back to .L0. -/
theorem visit_repeat_contract_witness :
    ∃ pre l_op r_op,
      (stateOfOk (visitStmt (.mk [] none 0)
          (.repeatStmt [] (.compare .eq (.intLiteral 1) (.intLiteral 1)))
          {})).code.instructions =
        pre ++ [⟨.HINS_INT_COMPARE, [l_op, r_op]⟩,
                ⟨claimCompareJump .eq true,
                 [.label (".L" ++ toString (0 : Nat)) false]⟩] :=
  (visit_repeat_contract (.mk [] none 0) [] .eq (.intLiteral 1) (.intLiteral 1)
    {}).2.2
    (stateOfOk (visitStmt (.mk [] none 0)
      (.repeatStmt [] (.compare .eq (.intLiteral 1) (.intLiteral 1))) {}))
    (by rfl)

/-- C3 (code bug): after the semantic pass on
VAR r : RECORD a : INTEGER END, the record scope shares the offset cursor
with the outer scope, so the global symbol r gets offset 8 while the
global scope total size is 8, violating offset + size ≤ total_size. -/
theorem offset_invariant_violated :
    ∃ st, runBuilder c3Input = .ok st ∧
      ∃ sym, sym ∈ st.scope.tab ∧
        st.scope.get_total_size < sym.offset + sym.ty.get_size := by
  refine ⟨_, rfl, ?_⟩
  decide

/-- C5 counterexample: on a scope holding one TYPE symbol T of record
type, the printed output recurses into the record scope before the line
of T, while the claimed print (recursion only before RECORD_FIELD
symbols) does not. -/
theorem print_record_field_claim_cx :
    typeBoundScope.print_sym_tab ≠ some (claimPrintSymTab typeBoundScope) := by
  decide

mutual
/-- The source print coincides everywhere with the amended description
(recursion exactly before kind-TYPE symbols). -/
theorem printSymTab_eq_amended_aux :
    ∀ t : SymbolTable, t.print_sym_tab = amendedPrintSymTab t
  | .mk tab _ depth => by
    simp only [SymbolTable.print_sym_tab, amendedPrintSymTab]
    exact printSyms_eq_amended_aux depth tab
termination_by t => sizeOf t

/-- The per-symbol loops of the source print and the amended print
agree. -/
theorem printSyms_eq_amended_aux :
    ∀ (d : Nat) (l : List Symbol), printSymsAtDepth d l = amendedPrintSyms d l
  | _, [] => rfl
  | d, .mk name kind t off :: rest => by
    have ihRest := printSyms_eq_amended_aux d rest
    cases t with
    | recordTy nested =>
      have ihNested := printSymTab_eq_amended_aux nested
      cases kind <;>
        simp [printSymsAtDepth, amendedPrintSyms, kindVal, realTypeVal, ihRest, ihNested]
    | primitive nm =>
      cases kind <;>
        simp [printSymsAtDepth, amendedPrintSyms, kindVal, realTypeVal, ihRest]
    | arrayTy len elem =>
      cases kind <;>
        simp [printSymsAtDepth, amendedPrintSyms, kindVal, realTypeVal, ihRest]
termination_by _ l => sizeOf l
end

/-- C5 amended: print emits one CSV line per symbol in declaration order
(depth, kind name, name, type string), and before a symbol of kind TYPE —
whose Kind value equals the RealType RECORD enumerator the source
compares against — it first prints the nested scope of the symbol's type
(crashing when that type is not a record), so a record type definition's
fields appear at their greater depth before the type's own line. -/
theorem print_sym_tab_recurses_on_type (t : SymbolTable) :
    t.print_sym_tab = amendedPrintSymTab t :=
  printSymTab_eq_amended_aux t

/-- C6: SymbolTable::insert appends at the end of the scope's ordered
sequence, and a name already bound anywhere up the visible scope chain —
including only in an enclosing parent scope — is a fatal error; at the
semantic-pass level the duplicate diagnostic carries file, line and
column. -/
theorem insert_appends_and_duplicate_fatal (t : SymbolTable) (sym : Symbol)
    (info : SrcInfo) (ty : Ty) (st : BuilderState) (name : String) :
    (∀ t', t.insert sym = .ok t' → t'.tab = t.tab ++ [sym]) ∧
    (t.s_exists sym.name = true → ∃ e, t.insert sym = .error e) ∧
    (st.scope.s_exists name = true →
      insertVarSyms info ty st [name] =
        .error (errAt info (alreadyDefinedMsg name))) := by
  refine ⟨?_, ?_, ?_⟩
  · intro t' h
    cases t with
    | mk tab parent depth =>
      by_cases hex : SymbolTable.s_exists (.mk tab parent depth) sym.name
      · simp [SymbolTable.insert, hex] at h
      · simp only [SymbolTable.insert, hex, if_false, Bool.false_eq_true] at h
        obtain rfl : _ = t' := Except.ok.inj h
        rfl
  · intro hex
    exact ⟨"Name \x27" ++ sym.name ++ "\x27 is already defined",
      by simp [SymbolTable.insert, hex]⟩
  · intro hex
    unfold insertVarSyms
    simp [hex]

/-- Witness for C6: the parent-only duplicate x is fatal at both levels,
and the pass-level diagnostic carries the source location. -/
theorem insert_appends_and_duplicate_fatal_witness :
    parentOnlyScope.s_exists "x" = true ∧
    (∃ e, parentOnlyScope.insert (.mk "x" .VARIABLE (.primitive "INTEGER") 8) = .error e) ∧
    insertVarSyms cInfo (.primitive "INTEGER") ⟨parentOnlyScope, 0⟩ ["x"] =
      .error (errAt cInfo (alreadyDefinedMsg "x")) :=
  ⟨by decide,
   (insert_appends_and_duplicate_fatal parentOnlyScope
      (.mk "x" .VARIABLE (.primitive "INTEGER") 8) cInfo (.primitive "INTEGER")
      ⟨parentOnlyScope, 0⟩ "x").2.1 (by decide),
   (insert_appends_and_duplicate_fatal parentOnlyScope
      (.mk "x" .VARIABLE (.primitive "INTEGER") 8) cInfo (.primitive "INTEGER")
      ⟨parentOnlyScope, 0⟩ "x").2.2 (by decide)⟩

/-- s_exists answers exactly whether lookup finds the name. -/
theorem s_exists_eq_lookup_isSome :
    ∀ (t : SymbolTable) (nm : String), t.s_exists nm = (t.lookup nm).isSome
  | .mk tab parent d, nm => by
    rw [SymbolTable.s_exists.eq_def, SymbolTable.lookup.eq_def]
    dsimp only
    cases hfind : tab.find? (fun s : Symbol => s.name = nm) with
    | some sym =>
      have hany : tab.any (fun s => s.name = nm) = true :=
        List.any_eq_true.mpr ⟨sym, List.mem_of_find?_eq_some hfind,
          List.find?_some (p := fun s : Symbol => s.name = nm) hfind⟩
      simp [hany]
    | none =>
      have hnone := List.find?_eq_none.mp hfind
      have hany : tab.any (fun s => s.name = nm) = false := by
        rw [Bool.eq_false_iff]
        intro hc
        obtain ⟨x, hx, hpx⟩ := List.any_eq_true.mp hc
        exact hnone x hx hpx
      simp only [hany, Bool.false_eq_true, if_false]
      cases parent with
      | none => rfl
      | some p => exact s_exists_eq_lookup_isSome p nm
termination_by t _ => sizeOf t

/-- C10: a variable reference whose identifier is bound anywhere in the
visible scope chain — whatever the kind of the binding — is accepted, and
the symbol's type, the identifier text and the identifier's source
location are copied onto the node; the only diagnostic the handler can
report is the located Undefined-variable error (never a not-a-variable
error). -/
theorem var_ref_accepts_any_bound (scope : SymbolTable) (name : String)
    (info : SrcInfo) :
    (scope.s_exists name = true →
      ∃ sym, scope.lookup name = some sym ∧
        visit_var_ref_sem scope name info = .ok (name, sym.ty, info)) ∧
    (∀ e, visit_var_ref_sem scope name info = .error e →
      e = errAt info ("Undefined variable \x27" ++ name ++ "\x27")) := by
  constructor
  · intro hex
    have hsome : (scope.lookup name).isSome := by
      rw [← s_exists_eq_lookup_isSome]; exact hex
    obtain ⟨sym, hsym⟩ := Option.isSome_iff_exists.mp hsome
    exact ⟨sym, hsym, by simp [visit_var_ref_sem, hex, hsym]⟩
  · intro e he
    by_cases hex : scope.s_exists name
    · have hsome : (scope.lookup name).isSome := by
        rw [← s_exists_eq_lookup_isSome]; exact hex
      obtain ⟨sym, hsym⟩ := Option.isSome_iff_exists.mp hsome
      simp [visit_var_ref_sem, hex, hsym] at he
    · simp only [visit_var_ref_sem, hex, Bool.false_eq_true, if_false] at he
      exact (Except.error.inj he).symm

/-- Witness for C10: the TYPE binding T is accepted by the
variable-reference handler, which copies its record type and the
identifier's location. -/
theorem var_ref_accepts_any_bound_witness :
    typeBoundScope.s_exists "T" = true ∧
    ∃ sym, typeBoundScope.lookup "T" = some sym ∧
      visit_var_ref_sem typeBoundScope "T" cInfo = .ok ("T", sym.ty, cInfo) :=
  ⟨by decide,
   (var_ref_accepts_any_bound typeBoundScope "T" cInfo).1 (by decide)⟩

end SimpleP
